import Mathlib

/-!
Verification of the QueueTimer backend assignment-timer state machine.

The definitions below are a shallow embedding of the Python sources:
  - backend/models.py            (Assignment / AssignmentStatistic rows, validators)
  - backend/timer/services.py    (duration codec, clock helpers, formatters)
  - backend/timer/routers.py     (start / pause / resume / complete transitions)
  - backend/timer/queries.py     (assignment lookup)

Absolute instants and second counts are modelled as rationals (the Python
code uses datetimes and floats; all arithmetic the claims touch is exact
difference/sum/comparison arithmetic, which the rationals reproduce).
Python `round` (banker's rounding to an int) is modelled by `pyRound`.
The database session, logging and HTTP glue are dropped: a transition is a
pure function from (current clock reading, loaded state) to either an
error (the HTTPException raised, meaning nothing is committed) or the new
state that gets committed.
-/

namespace QueueTimer

/-- Python's builtin `round` to an integer: round half to even. -/
def pyRound (q : ℚ) : ℤ :=
  if q - ⌊q⌋ < 1 / 2 then ⌊q⌋
  else if 1 / 2 < q - ⌊q⌋ then ⌊q⌋ + 1
  else if ⌊q⌋ % 2 = 0 then ⌊q⌋ else ⌊q⌋ + 1

/-- Python's f-string `f"{n:02d}"`: decimal rendering zero-padded to width 2. -/
def pad2 (n : ℤ) : String :=
  if 0 ≤ n ∧ n < 10 then "0" ++ toString n else toString n

/-- Python's `str.split(":")` on the character list of a string: cut at every
colon, keeping empty pieces. -/
def splitOnColon : List Char → List (List Char)
  | [] => [[]]
  | c :: rest =>
    if c = ':' then [] :: splitOnColon rest
    else
      match splitOnColon rest with
      | piece :: pieces => (c :: piece) :: pieces
      | [] => [[c]]

/-- Python's `int(s)` on a decimal digit string (an optional leading minus
sign followed by at least one digit); a malformed field raises ValueError,
modelled as `none`. -/
def parseDigits : List Char → Option ℕ
  | [] => some 0
  | c :: rest =>
    if c.isDigit then
      (parseDigits rest).map fun n =>
        (c.toNat - '0'.toNat) * 10 ^ rest.length + n
    else none

/-- Python's `int` applied to one split piece. -/
def parsePyInt (cs : List Char) : Option ℤ :=
  match cs with
  | [] => none
  | '-' :: rest =>
    if rest = [] then none else (parseDigits rest).map fun n => -(n : ℤ)
  | _ => (parseDigits cs).map fun n => (n : ℤ)

/-- services.convert_hours_minutes_to_seconds: parse an "HH:MM" string into
total seconds (`hours, minutes = map(int, time.split(":"))`).  A string that
does not split into exactly two integer fields raises in Python; that is
modelled as `none`. -/
def convert_hours_minutes_to_seconds (time : String) : Option ℤ :=
  match (splitOnColon time.toList).map parsePyInt with
  | [some hours, some minutes] => some (hours * 3600 + minutes * 60)
  | _ => none

/-- services.format_time_backwards: render an elapsed-seconds count as
"HH:MM:SS", rounded to the nearest whole second.  Python `//` and `%` on
ints are floor division and floor modulus. -/
def format_time_backwards (time : ℚ) : String :=
  let rounded_time : ℤ := pyRound time
  let hours : ℤ := rounded_time.fdiv 3600
  let minutes : ℤ := (rounded_time.fmod 3600).fdiv 60
  let seconds : ℤ := rounded_time.fmod 60
  pad2 hours ++ ":" ++ pad2 minutes ++ ":" ++ pad2 seconds

/-- The local wall-clock components of `time.astimezone(tz=local_time_zone)`
in services.format_time: hour, minute, second and microsecond fields of a
Python datetime (hour ≤ 23, minute ≤ 59, second ≤ 59, microsecond ≤ 999999
for any real datetime; the fields are taken as given here since the
timezone conversion itself is an external library call). -/
structure LocalClockFields where
  hour : ℕ
  minute : ℕ
  second : ℕ
  microsecond : ℕ
deriving Repr, DecidableEq

/-- services.format_time: convert the local wall-clock fields of an instant
to an "HH:MM:SS" string rounded to the nearest second.  The total seconds
of the day (with the microsecond fraction) are rounded first and only then
split into hour/minute/second fields. -/
def format_time (t : LocalClockFields) : String :=
  let total_seconds : ℚ :=
    (t.hour : ℚ) * 3600 + (t.minute : ℚ) * 60 + (t.second : ℚ)
      + (t.microsecond : ℚ) / 1000000
  let rounded_seconds : ℤ := pyRound total_seconds
  let hours : ℤ := rounded_seconds.fdiv 3600
  let minutes : ℤ := (rounded_seconds.fmod 3600).fdiv 60
  let seconds : ℤ := rounded_seconds.fmod 60
  pad2 hours ++ ":" ++ pad2 minutes ++ ":" ++ pad2 seconds

/-- services.calculate_estimated_end_time: start_time + duration_seconds. -/
def calculate_estimated_end_time (start_time : ℚ) (duration_seconds : ℚ) : ℚ :=
  start_time + duration_seconds

/-- services.calculate_remaining_time_for_pause: max_duration − elapsed. -/
def calculate_remaining_time_for_pause
    (max_duration_seconds : ℚ) (elapsed_duration_seconds : ℚ) : ℚ :=
  max_duration_seconds - elapsed_duration_seconds

/-- The regex `^(?:[01]\d|2[0-3]):[0-5]\d:[0-5]\d$` used by the
schemas.StartAssignment (and the other transition-result schemas) pydantic
fields: a valid "HH:MM:SS" wall-clock string with 00 ≤ HH ≤ 23. -/
def matchesHHMMSS (s : String) : Bool :=
  match s.toList with
  | [h1, h2, c1, m1, m2, c2, s1, s2] =>
    ((h1 == '0' || h1 == '1') && h2.isDigit
      || h1 == '2' && (h2 == '0' || h2 == '1' || h2 == '2' || h2 == '3'))
    && c1 == ':'
    && (m1 == '0' || m1 == '1' || m1 == '2' || m1 == '3' || m1 == '4' || m1 == '5')
    && m2.isDigit
    && c2 == ':'
    && (s1 == '0' || s1 == '1' || s1 == '2' || s1 == '3' || s1 == '4' || s1 == '5')
    && s2.isDigit
  | _ => false

/-- models.Assignment.validate_max_duration: accept when
`1 <= value <= 24 * 3600`, otherwise raise ValueError with the message the
source picks (the SQLAlchemy validator runs on attribute assignment, before
any row is stored). -/
def validate_max_duration (value : ℤ) : Except String ℤ :=
  if 1 ≤ value ∧ value ≤ 24 * 3600 then Except.ok value
  else if value < 1 then Except.error "Duration must be at least 1 minute."
  else Except.error "Duration too long. Maximum allowed is 24 hours."

/-- models.AssignmentStatistic: the mutable timer bookkeeping row.  Nullable
columns are Options; instants and second counts are rationals. -/
structure AssignmentStatistic where
  start_time : Option ℚ
  elapsed_time : Option ℚ
  end_time : Option ℚ
  last_paused_time : Option ℚ
  last_resumed_time : Option ℚ
  remaining_seconds : Option ℚ
  pause_count : ℤ
deriving Repr, DecidableEq

/-- models.Assignment restricted to the fields the timer state machine reads
or writes (title and ownership are handled separately, see AssignmentRow). -/
structure Assignment where
  max_duration : ℤ
  is_started : Bool
  is_paused : Bool
  is_complete : Bool
  stats : AssignmentStatistic
deriving Repr, DecidableEq

/-- The HTTPException outcomes a transition endpoint can raise: 400 guard
rejections (InvalidTransition, with the detail message), 404 lookups,
500 data-integrity faults (the logged isinstance checks), and the 500 the
framework produces from an uncaught TypeError. -/
inductive ApiError where
  | notFound
  | invalidTransition (detail : String)
  | integrityFault (detail : String)
  | typeFault
deriving Repr, DecidableEq

/-- create_assignment (routers.py 41-50): the statistics row is created with
start_time/end_time null, elapsed_time 0, pause_count 0, and the model
defaults last_paused_time/last_resumed_time/remaining_seconds null. -/
def createStatistics : AssignmentStatistic :=
  { start_time := none
    elapsed_time := some 0
    end_time := none
    last_paused_time := none
    last_resumed_time := none
    remaining_seconds := none
    pause_count := 0 }

/-- A freshly created assignment: lifecycle flags default to false. -/
def createAssignment (max_duration : ℤ) : Assignment :=
  { max_duration := max_duration
    is_started := false
    is_paused := false
    is_complete := false
    stats := createStatistics }

/-- start_assignment (routers.py 224-256), after the user/assignment lookup:
guard against already started / paused / completed, then set is_started and
start_time := now (the formatted response strings are presentation only). -/
def start_assignment (now : ℚ) (a : Assignment) : Except ApiError Assignment :=
  if a.is_started then
    Except.error (ApiError.invalidTransition "Assignment has already started")
  else if a.is_paused then
    Except.error (ApiError.invalidTransition
      "Assignment has already been started and is currently paused")
  else if a.is_complete then
    Except.error (ApiError.invalidTransition "Assignment has already been completed")
  else
    Except.ok { a with
      is_started := true
      stats := { a.stats with start_time := some now } }

/-- pause_assignment (routers.py 284-342), after the lookups: guards, then
fold the current active run into elapsed_time, cache remaining_seconds,
stamp last_paused_time and bump pause_count.  Python's
`last_resumed_time or start_time` is None-coalescing (datetimes are always
truthy); `elapsed_time or 0.0` likewise maps None to 0.0 (and keeps an
already-zero float at 0.0).  The result pairs the committed row with the
formatted elapsed-time response.  The code reads the clock twice a few
microseconds apart (once for the run length, once for last_paused_time);
both readings are modelled as the single instant `now`. -/
def pause_assignment (now : ℚ) (a : Assignment) :
    Except ApiError (Assignment × String) :=
  if ¬ a.is_started then
    Except.error (ApiError.invalidTransition "Assignment hasn't been started yet")
  else if a.is_paused then
    Except.error (ApiError.invalidTransition "Assignment is already paused")
  else if a.is_complete then
    Except.error (ApiError.invalidTransition "Assignment has already been completed")
  else
    match a.stats.last_resumed_time.orElse (fun _ => a.stats.start_time) with
    | none => Except.error (ApiError.integrityFault "Error occurred calculating pause time.")
    | some last_active_start_time =>
      let current_run_duration_seconds := now - last_active_start_time
      let previously_elapsed_seconds := a.stats.elapsed_time.getD 0
      let total_elapsed_seconds :=
        previously_elapsed_seconds + current_run_duration_seconds
      let remaining_time_seconds :=
        calculate_remaining_time_for_pause (a.max_duration : ℚ) total_elapsed_seconds
      Except.ok
        ({ a with
            is_paused := true
            stats := { a.stats with
              elapsed_time := some total_elapsed_seconds
              remaining_seconds := some remaining_time_seconds
              last_paused_time := some now
              pause_count := a.stats.pause_count + 1 } },
          format_time_backwards total_elapsed_seconds)

/-- resume_assignment (routers.py 370-424), after the lookups: guards, then
the two isinstance integrity checks on elapsed_time and remaining_seconds,
then compute the new estimated end instant, stamp last_resumed_time and
clear is_paused.  elapsed_time is not touched.  The result pairs the
committed row with the new estimated end instant (formatted for the
response by the presentation layer). -/
def resume_assignment (now : ℚ) (a : Assignment) :
    Except ApiError (Assignment × ℚ) :=
  if ¬ a.is_started then
    Except.error (ApiError.invalidTransition "Assignment hasn't been started yet")
  else if ¬ a.is_paused then
    Except.error (ApiError.invalidTransition "Assignment is already running")
  else if a.is_complete then
    Except.error (ApiError.invalidTransition "Assignment has already been completed")
  else
    match a.stats.elapsed_time with
    | none => Except.error (ApiError.integrityFault "Error calculating remaining time")
    | some _ =>
      match a.stats.remaining_seconds with
      | none => Except.error (ApiError.integrityFault "Error calculating remaining time")
      | some remaining =>
        let new_estimated_end_time := calculate_estimated_end_time now remaining
        Except.ok
          ({ a with
              is_paused := false
              stats := { a.stats with last_resumed_time := some now } },
            new_estimated_end_time)

/-- The completion bookkeeping shared by every branch of complete_assignment
(routers.py 517-520): clear is_paused, set is_complete, store the final
elapsed time and end time. -/
def markComplete (a : Assignment) (final_elapsed_time : Option ℚ)
    (end_time : Option ℚ) : Assignment :=
  { a with
    is_paused := false
    is_complete := true
    stats := { a.stats with
      elapsed_time := final_elapsed_time
      end_time := end_time } }

/-- complete_assignment (routers.py 444-524), after the lookup: guards
(no is_paused guard: complete is allowed from Running or Paused), the
start_time integrity check, then the three-way case split on the total
elapsed time.  While running, the live run since the anchor
(last_resumed_time, else start_time) is folded in first.  In CASE 3 with
last_resumed_time set, Python adds the Optional elapsed_time to a float:
a None there is an uncaught TypeError, modelled as ApiError.typeFault. -/
def complete_assignment (now : ℚ) (a : Assignment) : Except ApiError Assignment :=
  if ¬ a.is_started then
    Except.error (ApiError.invalidTransition "Assignment hasn't been started yet")
  else if a.is_complete then
    Except.error (ApiError.invalidTransition "Assignment has already been completed")
  else
    match a.stats.start_time with
    | none => Except.error (ApiError.integrityFault "Error calculating start time")
    | some start_time =>
      let base_elapsed := a.stats.elapsed_time.getD 0
      let total_elapsed :=
        if ¬ a.is_paused then
          base_elapsed + (now - (a.stats.last_resumed_time.getD start_time))
        else base_elapsed
      -- CASE 1: Auto-completed: total time >= max duration
      if (a.max_duration : ℚ) ≤ total_elapsed then
        let end_time : Option ℚ :=
          if a.is_paused then a.stats.last_paused_time
          else
            -- Back-calculate when it should have completed
            some (now - (total_elapsed - (a.max_duration : ℚ)))
        Except.ok (markComplete a (some (a.max_duration : ℚ)) end_time)
      -- CASE 2: Never paused + manual completion
      else if a.stats.last_paused_time = none then
        let final_elapsed_time : ℤ := min (pyRound (now - start_time)) a.max_duration
        Except.ok (markComplete a (some (final_elapsed_time : ℚ)) (some now))
      -- CASE 3: Paused + manual completion
      else
        if a.is_paused then
          Except.ok (markComplete a a.stats.elapsed_time a.stats.last_paused_time)
        else
          match a.stats.last_resumed_time with
          | some last_resumed_time =>
            match a.stats.elapsed_time with
            | none => Except.error ApiError.typeFault
            | some paused_elapsed_time =>
              let time_since_resume := now - last_resumed_time
              let final_elapsed_time :=
                min (paused_elapsed_time + time_since_resume) (a.max_duration : ℚ)
              Except.ok (markComplete a (some final_elapsed_time) (some now))
          | none =>
            -- somehow not paused but no resume time
            Except.ok (markComplete a a.stats.elapsed_time (some now))

/-- A persisted assignments-table row as far as ownership is concerned:
its primary key and the id of the owning public_users row (models.Assignment
stores ownership via user_id; the owner's token lives on the user row). -/
structure AssignmentRow where
  id : ℤ
  user_id : ℤ
deriving Repr, DecidableEq

/-- The canonical "HH:MM" rendering of an hour/minute pair; for hour ≤ 23
and minute ≤ 59 these are exactly the strings the CreateAssignment duration
regex admits. -/
def mkHHMM (h m : ℕ) : String :=
  pad2 (h : ℤ) ++ ":" ++ pad2 (m : ℤ)

/-- queries.get_assignment_by_id: the WHERE clause of
`select(Assignment).where(Assignment.id == assignment_id)`.  The function
takes no owner token and the clause constrains only the primary key. -/
def get_assignment_by_id_clause (assignment_id : ℤ) (row : AssignmentRow) : Bool :=
  row.id == assignment_id

/-- Running the get_assignment_by_id select against a table and taking
scalar_one_or_none (the id is unique, so the first match). -/
def get_assignment_by_id_result (assignment_id : ℤ) (table : List AssignmentRow) :
    Option AssignmentRow :=
  (table.filter (get_assignment_by_id_clause assignment_id)).head?

/-- Lookup behaviour modelled from the spec: a transition's read is keyed by
assignment id AND owner identity, answering NotFound when the assignment
belongs to a different owner. -/
def spec_assignment_lookup (assignment_id : ℤ) (requester_user_id : ℤ)
    (table : List AssignmentRow) : Option AssignmentRow :=
  (table.filter fun row =>
    row.id == assignment_id && row.user_id == requester_user_id).head?

/-- Reachability of a persisted assignment state at clock instant t: the
state of a freshly created assignment (with a validator-accepted positive
budget), evolved by any sequence of successful start/pause/resume/complete
transitions, under a non-decreasing clock (tick). -/
inductive Reachable : ℚ → Assignment → Prop where
  | create (t : ℚ) (max_duration : ℤ) (hmax : 1 ≤ max_duration) :
      Reachable t (createAssignment max_duration)
  | tick {t t' : ℚ} {a : Assignment} :
      Reachable t a → t ≤ t' → Reachable t' a
  | step_start {t : ℚ} {a a' : Assignment} :
      Reachable t a → start_assignment t a = Except.ok a' → Reachable t a'
  | step_pause {t : ℚ} {a a' : Assignment} {s : String} :
      Reachable t a → pause_assignment t a = Except.ok (a', s) → Reachable t a'
  | step_resume {t : ℚ} {a a' : Assignment} {e : ℚ} :
      Reachable t a → resume_assignment t a = Except.ok (a', e) → Reachable t a'
  | step_complete {t : ℚ} {a a' : Assignment} :
      Reachable t a → complete_assignment t a = Except.ok a' → Reachable t a'

/-- The state invariant every reachable state satisfies at its clock
instant: the budget is positive, elapsed_time is populated and
non-negative, a started assignment has a start_time no later than now,
last_resumed_time (when set) is no later than now, and a completed
assignment's elapsed_time is within the budget. -/
def Inv (t : ℚ) (a : Assignment) : Prop :=
  1 ≤ a.max_duration ∧
  (∃ e, a.stats.elapsed_time = some e ∧ 0 ≤ e) ∧
  (a.is_started = true → ∃ st, a.stats.start_time = some st ∧ st ≤ t) ∧
  (∀ r, a.stats.last_resumed_time = some r → r ≤ t) ∧
  (a.is_complete = true → ∀ e, a.stats.elapsed_time = some e → e ≤ (a.max_duration : ℚ))

/-! ### Helper lemmas -/

/-- Python round of an exact integer is that integer. -/
theorem pyRound_intCast (n : ℤ) : pyRound (n : ℚ) = n := by
  unfold pyRound
  have h : ((n : ℚ)) - (⌊(n : ℚ)⌋ : ℚ) = 0 := by
    rw [Int.floor_intCast]; ring
  rw [Int.floor_intCast] at *
  simp only [h]
  norm_num

/-- format_time_backwards on an exact integer count of seconds reduces to
pure integer field splitting. -/
theorem format_time_backwards_intCast (n : ℤ) :
    format_time_backwards (n : ℚ) =
      pad2 (n.fdiv 3600) ++ ":" ++ pad2 ((n.fmod 3600).fdiv 60) ++ ":" ++ pad2 (n.fmod 60) := by
  unfold format_time_backwards
  rw [pyRound_intCast]

/-- Inversion for start: exactly when the three guards pass, and the result
only sets is_started and start_time. -/
theorem start_ok_iff (now : ℚ) (a a' : Assignment) :
    start_assignment now a = Except.ok a' ↔
      a.is_started = false ∧ a.is_paused = false ∧ a.is_complete = false ∧
      a' = { a with
        is_started := true
        stats := { a.stats with start_time := some now } } := by
  unfold start_assignment
  cases hs : a.is_started <;> cases hp : a.is_paused <;> cases hc : a.is_complete <;>
    simp [eq_comm]

/-- Inversion for pause: the guards pass, the anchor of the current run
exists, and the result folds the run into the accounting fields. -/
theorem pause_ok_iff (now : ℚ) (a a' : Assignment) (s : String) :
    pause_assignment now a = Except.ok (a', s) ↔
      a.is_started = true ∧ a.is_paused = false ∧ a.is_complete = false ∧
      ∃ anc, a.stats.last_resumed_time.orElse (fun _ => a.stats.start_time) = some anc ∧
        a' = { a with
          is_paused := true
          stats := { a.stats with
            elapsed_time := some (a.stats.elapsed_time.getD 0 + (now - anc))
            remaining_seconds :=
              some ((a.max_duration : ℚ) - (a.stats.elapsed_time.getD 0 + (now - anc)))
            last_paused_time := some now
            pause_count := a.stats.pause_count + 1 } } ∧
        s = format_time_backwards (a.stats.elapsed_time.getD 0 + (now - anc)) := by
  unfold pause_assignment
  cases hs : a.is_started <;> cases hp : a.is_paused <;> cases hc : a.is_complete <;>
    simp [calculate_remaining_time_for_pause]
  cases horE : a.stats.last_resumed_time.orElse (fun _ => a.stats.start_time) <;>
    simp [eq_comm, and_assoc]

/-- Inversion for resume: the guards pass, elapsed_time and
remaining_seconds are populated, and the result stamps last_resumed_time
and clears is_paused. -/
theorem resume_ok_iff (now : ℚ) (a a' : Assignment) (e : ℚ) :
    resume_assignment now a = Except.ok (a', e) ↔
      a.is_started = true ∧ a.is_paused = true ∧ a.is_complete = false ∧
      (∃ el, a.stats.elapsed_time = some el) ∧
      ∃ rem, a.stats.remaining_seconds = some rem ∧
        a' = { a with
          is_paused := false
          stats := { a.stats with last_resumed_time := some now } } ∧
        e = now + rem := by
  unfold resume_assignment
  cases hs : a.is_started <;> cases hp : a.is_paused <;> cases hc : a.is_complete <;>
    simp [calculate_estimated_end_time]
  cases hel : a.stats.elapsed_time <;>
    cases hrem : a.stats.remaining_seconds <;>
      simp [eq_comm, and_assoc]

/-- Python round never goes below the floor, so it is non-negative on
non-negative inputs. -/
theorem pyRound_nonneg {q : ℚ} (h : 0 ≤ q) : 0 ≤ pyRound q := by
  have hf : 0 ≤ ⌊q⌋ := Int.floor_nonneg.mpr h
  unfold pyRound
  split_ifs <;> omega

/-- On a state satisfying the invariant pieces, a successful complete keeps
max_duration, start_time and last_resumed_time, marks completion, and in
every branch stores a populated elapsed_time within [0, max_duration]. -/
theorem complete_ok_final_elapsed {t : ℚ} {a a' : Assignment}
    (hmax : 1 ≤ a.max_duration)
    (he : ∃ e, a.stats.elapsed_time = some e ∧ 0 ≤ e)
    (hstart : a.is_started = true → ∃ st, a.stats.start_time = some st ∧ st ≤ t)
    (hlrt : ∀ r, a.stats.last_resumed_time = some r → r ≤ t)
    (hok : complete_assignment t a = Except.ok a') :
    a.is_started = true ∧
    a'.max_duration = a.max_duration ∧
    a'.stats.start_time = a.stats.start_time ∧
    a'.stats.last_resumed_time = a.stats.last_resumed_time ∧
    a'.is_complete = true ∧
    ∃ e', a'.stats.elapsed_time = some e' ∧ 0 ≤ e' ∧ e' ≤ (a.max_duration : ℚ) := by
  obtain ⟨e0, he0, he0nn⟩ := he
  have hmaxq : (0 : ℚ) ≤ (a.max_duration : ℚ) := by exact_mod_cast (by omega : (0:ℤ) ≤ a.max_duration)
  by_cases hs : a.is_started = true
  swap
  · simp [complete_assignment, hs] at hok
  by_cases hc : a.is_complete = true
  · simp [complete_assignment, hs, hc] at hok
  obtain ⟨st, hst, hstle⟩ := hstart hs
  refine ⟨hs, ?_⟩
  by_cases hp : a.is_paused = true
  · -- Paused: the live run is not folded in; total = e0.
    by_cases hcase : (a.max_duration : ℚ) ≤ e0
    · -- CASE 1
      rw [show complete_assignment t a =
          Except.ok (markComplete a (some (a.max_duration : ℚ)) a.stats.last_paused_time) by
        simp [complete_assignment, hs, hc, hst, hp, he0, hcase]] at hok
      simp only [Except.ok.injEq] at hok
      subst hok
      exact ⟨rfl, rfl, rfl, rfl, (a.max_duration : ℚ), rfl, hmaxq, le_refl _⟩
    · cases hlp : a.stats.last_paused_time with
      | none =>
        -- CASE 2 (reached because the pause stamp is missing)
        rw [show complete_assignment t a =
            Except.ok (markComplete a
              (some ((min (pyRound (t - st)) a.max_duration : ℤ) : ℚ)) (some t)) by
          simp [complete_assignment, hs, hc, hst, hp, he0, hcase, hlp]] at hok
        simp only [Except.ok.injEq] at hok
        subst hok
        refine ⟨rfl, rfl, rfl, rfl, _, rfl, ?_, ?_⟩
        · have h1 : 0 ≤ pyRound (t - st) := pyRound_nonneg (by linarith)
          have h2 : (0 : ℤ) ≤ min (pyRound (t - st)) a.max_duration := le_min h1 (by omega)
          exact_mod_cast h2
        · exact_mod_cast min_le_right (pyRound (t - st)) a.max_duration
      | some p =>
        -- CASE 3, still paused
        rw [show complete_assignment t a =
            Except.ok (markComplete a a.stats.elapsed_time a.stats.last_paused_time) by
          simp [complete_assignment, hs, hc, hst, hp, he0, hcase, hlp]] at hok
        simp only [Except.ok.injEq] at hok
        subst hok
        exact ⟨rfl, rfl, rfl, rfl, e0, he0, he0nn, le_of_not_le hcase⟩
  · -- Running: the live run since the anchor is folded in first.
    cases hlr : a.stats.last_resumed_time with
    | none =>
      have hT : e0 ≤ e0 + (t - st) := by linarith
      by_cases hcase : (a.max_duration : ℚ) ≤ e0 + (t - st)
      · -- CASE 1, back-dated end time
        rw [show complete_assignment t a =
            Except.ok (markComplete a (some (a.max_duration : ℚ))
              (some (t - (e0 + (t - st) - (a.max_duration : ℚ))))) by
          simp [complete_assignment, hs, hc, hst, hp, hlr, he0, hcase]] at hok
        simp only [Except.ok.injEq] at hok
        subst hok
        exact ⟨rfl, rfl, by simp [markComplete, hlr], rfl, _, rfl, hmaxq, le_refl _⟩
      · cases hlp : a.stats.last_paused_time with
        | none =>
          -- CASE 2: the genuine never-paused manual completion
          rw [show complete_assignment t a =
              Except.ok (markComplete a
                (some ((min (pyRound (t - st)) a.max_duration : ℤ) : ℚ)) (some t)) by
            simp [complete_assignment, hs, hc, hst, hp, hlr, he0, hcase, hlp]] at hok
          simp only [Except.ok.injEq] at hok
          subst hok
          refine ⟨rfl, rfl, by simp [markComplete, hlr], rfl, _, rfl, ?_, ?_⟩
          · have h1 : 0 ≤ pyRound (t - st) := pyRound_nonneg (by linarith)
            have h2 : (0 : ℤ) ≤ min (pyRound (t - st)) a.max_duration := le_min h1 (by omega)
            exact_mod_cast h2
          · exact_mod_cast min_le_right (pyRound (t - st)) a.max_duration
        | some p =>
          -- CASE 3 with the resume stamp missing: elapsed is left as stored
          rw [show complete_assignment t a =
              Except.ok (markComplete a a.stats.elapsed_time (some t)) by
            simp [complete_assignment, hs, hc, hst, hp, hlr, he0, hcase, hlp]] at hok
          simp only [Except.ok.injEq] at hok
          subst hok
          exact ⟨rfl, rfl, by simp [markComplete, hlr], rfl, e0, he0, he0nn, by linarith⟩
    | some r =>
      have hrle : r ≤ t := hlrt r hlr
      by_cases hcase : (a.max_duration : ℚ) ≤ e0 + (t - r)
      · rw [show complete_assignment t a =
            Except.ok (markComplete a (some (a.max_duration : ℚ))
              (some (t - (e0 + (t - r) - (a.max_duration : ℚ))))) by
          simp [complete_assignment, hs, hc, hst, hp, hlr, he0, hcase]] at hok
        simp only [Except.ok.injEq] at hok
        subst hok
        exact ⟨rfl, rfl, by simp [markComplete, hlr], rfl, _, rfl, hmaxq, le_refl _⟩
      · cases hlp : a.stats.last_paused_time with
        | none =>
          rw [show complete_assignment t a =
              Except.ok (markComplete a
                (some ((min (pyRound (t - st)) a.max_duration : ℤ) : ℚ)) (some t)) by
            simp [complete_assignment, hs, hc, hst, hp, hlr, he0, hcase, hlp]] at hok
          simp only [Except.ok.injEq] at hok
          subst hok
          refine ⟨rfl, rfl, by simp [markComplete, hlr], rfl, _, rfl, ?_, ?_⟩
          · have h1 : 0 ≤ pyRound (t - st) := pyRound_nonneg (by linarith)
            have h2 : (0 : ℤ) ≤ min (pyRound (t - st)) a.max_duration := le_min h1 (by omega)
            exact_mod_cast h2
          · exact_mod_cast min_le_right (pyRound (t - st)) a.max_duration
        | some p =>
          -- CASE 3, resumed then completed early
          rw [show complete_assignment t a =
              Except.ok (markComplete a
                (some (min (e0 + (t - r)) (a.max_duration : ℚ))) (some t)) by
            simp [complete_assignment, hs, hc, hst, hp, hlr, he0, hcase, hlp]] at hok
          simp only [Except.ok.injEq] at hok
          subst hok
          refine ⟨rfl, rfl, by simp [markComplete, hlr], rfl, _, rfl, ?_, min_le_right _ _⟩
          exact le_min (by linarith) hmaxq

/-- Every reachable state satisfies the invariant. -/
theorem reachable_inv {t : ℚ} {a : Assignment} (h : Reachable t a) : Inv t a := by
  induction h with
  | create t m hm =>
    exact ⟨hm, ⟨0, rfl, le_refl 0⟩,
      by simp [createAssignment, createStatistics],
      by simp [createAssignment, createStatistics],
      by simp [createAssignment, createStatistics]⟩
  | tick h hle ih =>
    obtain ⟨i1, i2, i3, i4, i5⟩ := ih
    refine ⟨i1, i2, ?_, ?_, i5⟩
    · intro hs
      obtain ⟨st, h1, h2⟩ := i3 hs
      exact ⟨st, h1, h2.trans hle⟩
    · intro r hr
      exact (i4 r hr).trans hle
  | step_start h hok ih =>
    obtain ⟨i1, i2, i3, i4, i5⟩ := ih
    rw [start_ok_iff] at hok
    obtain ⟨hs, hp, hc, rfl⟩ := hok
    exact ⟨i1, i2, fun _ => ⟨_, rfl, le_refl _⟩, i4, by simp [hc]⟩
  | @step_pause t a a' s h hok ih =>
    obtain ⟨i1, ⟨e0, he0, he0nn⟩, i3, i4, i5⟩ := ih
    rw [pause_ok_iff] at hok
    obtain ⟨hs, hp, hc, anc, hanc, rfl, -⟩ := hok
    obtain ⟨st, hst, hstle⟩ := i3 hs
    have hancle : anc ≤ t := by
      cases hlr : a.stats.last_resumed_time with
      | none =>
        rw [hlr] at hanc
        have hanc' : a.stats.start_time = some anc := hanc
        rw [hst] at hanc'
        injection hanc' with h2
        rw [← h2]
        exact hstle
      | some r =>
        rw [hlr] at hanc
        have h2 : r = anc := Option.some.inj hanc
        rw [← h2]
        exact i4 r hlr
    refine ⟨i1, ⟨a.stats.elapsed_time.getD 0 + (t - anc), rfl, ?_⟩,
      fun _ => ⟨st, hst, hstle⟩, i4, ?_⟩
    · rw [he0]
      simp only [Option.getD_some]
      linarith
    · intro hcomp
      exact absurd hcomp (by simp [hc])
  | @step_resume t a a' e h hok ih =>
    obtain ⟨i1, i2, i3, i4, i5⟩ := ih
    rw [resume_ok_iff] at hok
    obtain ⟨hs, hp, hc, -, rem, hrem, rfl, -⟩ := hok
    obtain ⟨st, hst, hstle⟩ := i3 hs
    refine ⟨i1, i2, fun _ => ⟨st, hst, hstle⟩, ?_, ?_⟩
    · intro r hr
      have h2 : t = r := Option.some.inj hr
      rw [← h2]
    · intro hcomp
      exact absurd hcomp (by simp [hc])
  | step_complete h hok ih =>
    obtain ⟨i1, ⟨e0, he0, he0nn⟩, i3, i4, i5⟩ := ih
    obtain ⟨hs, hmaxeq, hsteq, hlrteq, hcompl, e', he', hnn, hle⟩ :=
      complete_ok_final_elapsed i1 ⟨e0, he0, he0nn⟩ i3 i4 hok
    obtain ⟨st, hst, hstle⟩ := i3 hs
    refine ⟨by rw [hmaxeq]; exact i1, ⟨e', he', hnn⟩, ?_, ?_, ?_⟩
    · intro _
      exact ⟨st, by rw [hsteq]; exact hst, hstle⟩
    · intro r hr
      exact i4 r (by rw [← hlrteq]; exact hr)
    · intro _ e he2
      rw [he'] at he2
      injection he2 with he2
      rw [← he2, hmaxeq]
      exact hle

/-! ### Claim theorems -/

/-- C9 (corrected): models.Assignment.validate_max_duration accepts an
integer v exactly when 1 ≤ v ≤ 86400 (the code's bound is 24 * 3600
inclusive, not 86399), and rejects every other value with a ValueError
message before any row is stored. -/
theorem validate_max_duration_range (v : ℤ) :
    (validate_max_duration v = Except.ok v ↔ 1 ≤ v ∧ v ≤ 86400) ∧
    (¬ (1 ≤ v ∧ v ≤ 86400) → ∃ msg, validate_max_duration v = Except.error msg) := by
  have h24 : (24 * 3600 : ℤ) = 86400 := by norm_num
  unfold validate_max_duration
  rw [h24]
  by_cases h : 1 ≤ v ∧ v ≤ 86400
  · simp [h]
  · refine ⟨by split_ifs <;> simp [h], fun _ => ?_⟩
    rw [if_neg h]
    by_cases hv : v < 1
    · exact ⟨_, by rw [if_pos hv]⟩
    · exact ⟨_, by rw [if_neg hv]⟩

/-- C9 witness: the amended acceptance condition evaluated at v = 100. -/
theorem validate_max_duration_range_witness :
    (validate_max_duration 100 = Except.ok 100 ↔ 1 ≤ (100 : ℤ) ∧ (100 : ℤ) ≤ 86400) ∧
    (¬ (1 ≤ (100 : ℤ) ∧ (100 : ℤ) ≤ 86400) →
      ∃ msg, validate_max_duration 100 = Except.error msg) :=
  validate_max_duration_range 100

/-- C9 counterexample: v = 86400 (24 hours) is accepted by the validator,
although the claim says every v outside 1..86399 — including 86400 — is
rejected. -/
theorem validate_max_duration_accepts_86400 :
    validate_max_duration 86400 = Except.ok 86400 := by
  unfold validate_max_duration
  norm_num

/-- C10 (confirmed): at the local wall-clock instant 23:59:59.600000 the
services.format_time rounding pushes the total seconds of the day up to
86400, so the formatted string is "24:00:00", which the StartAssignment
response pattern (hours 00-23) rejects. -/
theorem format_time_can_emit_hour_24 :
    format_time ⟨23, 59, 59, 600000⟩ = "24:00:00" ∧
    matchesHHMMSS "24:00:00" = false := by
  constructor
  · unfold format_time pyRound
    norm_num
    decide
  · decide

/-- C8 (code_bug): queries.get_assignment_by_id filters only on the
assignment's primary key.  With assignment 1 owned by user 7, the code's
select still returns the row for a request made on behalf of any other
identity (here user 8), while the spec's owner-keyed lookup answers
NotFound. -/
theorem get_assignment_lookup_ignores_owner :
    get_assignment_by_id_result 1 [⟨1, 7⟩] = some ⟨1, 7⟩ ∧
    spec_assignment_lookup 1 8 [⟨1, 7⟩] = none := by
  decide

/-- C7 counterexample: the duration codec round trip on the valid string
"00:01" yields "00:01:00" (format_time_backwards emits HH:MM:SS), which is
not the original "00:01". -/
theorem hhmm_roundtrip_not_identity :
    (convert_hours_minutes_to_seconds "00:01").map
        (fun n : ℤ => format_time_backwards (n : ℚ)) = some "00:01:00" ∧
      "00:01:00" ≠ "00:01" := by
  constructor
  · have h : convert_hours_minutes_to_seconds "00:01" = some 60 := by decide
    rw [h, Option.map_some', format_time_backwards_intCast]
    decide
  · decide

set_option maxHeartbeats 4000000 in
/-- C7 (corrected): for every valid "HH:MM" duration string in
00:01 .. 23:59, formatting the parsed value yields the original string
extended with a zero seconds field: format(parse(s)) = s ++ ":00". -/
theorem hhmm_roundtrip_amended :
    ∀ h : ℕ, h < 24 → ∀ m : ℕ, m < 60 → (h ≠ 0 ∨ m ≠ 0) →
      (convert_hours_minutes_to_seconds (mkHHMM h m)).map
        (fun n : ℤ => format_time_backwards (n : ℚ)) = some (mkHHMM h m ++ ":00") := by
  simp only [format_time_backwards_intCast]
  decide

/-- C7 witness: the amended round trip evaluated at "07:05". -/
theorem hhmm_roundtrip_amended_witness :
    (convert_hours_minutes_to_seconds (mkHHMM 7 5)).map
      (fun n : ℤ => format_time_backwards (n : ℚ)) = some (mkHHMM 7 5 ++ ":00") :=
  hhmm_roundtrip_amended 7 (by decide) 5 (by decide) (Or.inl (by decide))

/-- C5 (confirmed): pause on a NotStarted, already-Paused or Complete
assignment is rejected with an InvalidTransition (HTTP 400) guard error —
the handler raises before any field is written, so the state is unchanged —
and replaying a pause that already succeeded (the new state is Paused)
fails the same way instead of double-applying. -/
theorem pause_rejected_unless_running (t u : ℚ) (a : Assignment) :
    (a.is_started = false ∨ a.is_paused = true ∨ a.is_complete = true →
      ∃ d, pause_assignment t a = Except.error (ApiError.invalidTransition d)) ∧
    (∀ a' s, pause_assignment t a = Except.ok (a', s) →
      ∃ d, pause_assignment u a' = Except.error (ApiError.invalidTransition d)) := by
  constructor
  · intro h
    rcases h with h | h | h
    · exact ⟨"Assignment hasn't been started yet", by simp [pause_assignment, h]⟩
    · cases hs : a.is_started
      · exact ⟨"Assignment hasn't been started yet", by simp [pause_assignment, hs]⟩
      · exact ⟨"Assignment is already paused", by simp [pause_assignment, hs, h]⟩
    · cases hs : a.is_started
      · exact ⟨"Assignment hasn't been started yet", by simp [pause_assignment, hs]⟩
      · cases hp : a.is_paused
        · exact ⟨"Assignment has already been completed",
            by simp [pause_assignment, hs, hp, h]⟩
        · exact ⟨"Assignment is already paused", by simp [pause_assignment, hs, hp]⟩
  · intro a' s hok
    rw [pause_ok_iff] at hok
    obtain ⟨hs, hp, hc, anc, hanc, ha', hfmt⟩ := hok
    subst ha'
    exact ⟨"Assignment is already paused", by simp [pause_assignment, hs]⟩

/-- C5 witness: pausing a freshly created (NotStarted) assignment is
rejected. -/
theorem pause_rejected_unless_running_witness :
    ∃ d, pause_assignment 0 (createAssignment 60) =
      Except.error (ApiError.invalidTransition d) :=
  (pause_rejected_unless_running 0 0 (createAssignment 60)).1 (Or.inl rfl)

/-- C2 (confirmed): pause on a Running assignment folds now − anchor into
elapsed_time (anchor = last_resumed_time if set, else start_time), stores
remaining_seconds = max_duration − new elapsed (unclamped, possibly ≤ 0,
with no completion triggered: is_complete stays false), stamps
last_paused_time = now and increments pause_count by one. -/
theorem pause_running_accounting (t anc : ℚ) (a : Assignment)
    (h1 : a.is_started = true) (h2 : a.is_paused = false) (h3 : a.is_complete = false)
    (h4 : a.stats.last_resumed_time.orElse (fun _ => a.stats.start_time) = some anc) :
    ∃ a' s, pause_assignment t a = Except.ok (a', s) ∧
      a'.stats.elapsed_time = some (a.stats.elapsed_time.getD 0 + (t - anc)) ∧
      a'.stats.remaining_seconds =
        some ((a.max_duration : ℚ) - (a.stats.elapsed_time.getD 0 + (t - anc))) ∧
      a'.stats.last_paused_time = some t ∧
      a'.stats.pause_count = a.stats.pause_count + 1 ∧
      a'.is_complete = false := by
  refine ⟨_, _, (pause_ok_iff t a _ _).mpr ⟨h1, h2, h3, anc, h4, rfl, rfl⟩,
    rfl, rfl, rfl, rfl, ?_⟩
  simpa using h3

/-- C2 witness: pausing at t = 10 a run that started at 0 with 5 seconds
already banked gives elapsed 15, remaining 45, last_paused_time 10 and
pause_count 1. -/
theorem pause_running_accounting_witness :
    ∃ a' s,
      pause_assignment 10
          (⟨60, true, false, false, ⟨some 0, some 5, none, none, none, none, 0⟩⟩ :
            Assignment) = Except.ok (a', s) ∧
      a'.stats.elapsed_time = some 15 ∧
      a'.stats.remaining_seconds = some 45 ∧
      a'.stats.last_paused_time = some 10 ∧
      a'.stats.pause_count = 1 ∧
      a'.is_complete = false := by
  obtain ⟨a', s, h, e1, e2, e3, e4, e5⟩ :=
    pause_running_accounting 10 0
      (⟨60, true, false, false, ⟨some 0, some 5, none, none, none, none, 0⟩⟩ :
        Assignment) rfl rfl rfl rfl
  refine ⟨a', s, h, ?_, ?_, e3, by simpa using e4, e5⟩
  · rw [e1]; norm_num
  · rw [e2]; norm_num

/-- C1 (confirmed): complete on a started, non-complete assignment whose
accrued total elapsed time (recorded elapsed, plus now − anchor while
running) is at least max_duration stores elapsed = max_duration exactly,
and end_time = last_paused_time when paused, now − (total − max_duration)
when running. -/
theorem complete_auto_clamps (t st : ℚ) (a : Assignment)
    (h1 : a.is_started = true) (h2 : a.is_complete = false)
    (h3 : a.stats.start_time = some st)
    (h4 : (a.max_duration : ℚ) ≤
      (if a.is_paused then a.stats.elapsed_time.getD 0
       else a.stats.elapsed_time.getD 0 + (t - a.stats.last_resumed_time.getD st))) :
    ∃ a', complete_assignment t a = Except.ok a' ∧
      a'.stats.elapsed_time = some (a.max_duration : ℚ) ∧
      a'.stats.end_time =
        (if a.is_paused then a.stats.last_paused_time
         else some (t - (a.stats.elapsed_time.getD 0 +
           (t - a.stats.last_resumed_time.getD st) - (a.max_duration : ℚ)))) := by
  cases hp : a.is_paused
  · rw [hp] at h4
    simp only [Bool.false_eq_true, if_false] at h4
    refine ⟨markComplete a (some (a.max_duration : ℚ))
        (some (t - (a.stats.elapsed_time.getD 0 +
          (t - a.stats.last_resumed_time.getD st) - (a.max_duration : ℚ)))),
      ?_, rfl, by simp [markComplete]⟩
    simp [complete_assignment, h1, h2, h3, hp, h4, markComplete]
  · rw [hp] at h4
    simp only [if_true] at h4
    refine ⟨markComplete a (some (a.max_duration : ℚ)) a.stats.last_paused_time,
      ?_, rfl, by simp [markComplete]⟩
    simp [complete_assignment, h1, h2, h3, hp, h4, markComplete]

/-- C1 witness: a never-paused run of budget 60 started at 0 and completed
at t = 100 stores elapsed exactly 60 and back-dates end_time to 60. -/
theorem complete_auto_clamps_witness :
    ∃ a', complete_assignment 100
        (⟨60, true, false, false, ⟨some 0, some 0, none, none, none, none, 0⟩⟩ :
          Assignment) = Except.ok a' ∧
      a'.stats.elapsed_time = some 60 ∧
      a'.stats.end_time = some 60 := by
  obtain ⟨a', h, he, hend⟩ :=
    complete_auto_clamps 100 0
      (⟨60, true, false, false, ⟨some 0, some 0, none, none, none, none, 0⟩⟩ :
        Assignment) rfl rfl rfl (by norm_num)
  refine ⟨a', h, by simpa using he, ?_⟩
  rw [hend]
  norm_num

/-- C4 counterexample: budget 60, started at 0, never paused, completed at
t = 0.6 seconds.  The claim predicts stored elapsed
min(now − start_time, max_duration) = 0.6 with sub-second precision; the
code stores round(0.6) = 1. -/
theorem complete_never_paused_rounds_subsecond :
    ∃ a', complete_assignment (3 / 5)
        (⟨60, true, false, false, ⟨some 0, some 0, none, none, none, none, 0⟩⟩ :
          Assignment) = Except.ok a' ∧
      a'.stats.elapsed_time = some 1 ∧
      min ((3 / 5 : ℚ) - 0) 60 = 3 / 5 ∧ (1 : ℚ) ≠ 3 / 5 := by
  have hr : pyRound (3 / 5 - 0 : ℚ) = 1 := by
    unfold pyRound
    norm_num
  refine ⟨markComplete
      (⟨60, true, false, false, ⟨some 0, some 0, none, none, none, none, 0⟩⟩ :
        Assignment) (some 1) (some (3 / 5)), ?_, rfl, by norm_num, by norm_num⟩
  simp only [complete_assignment, markComplete]
  rw [hr]
  norm_num [min_def]

/-- C4 (corrected): complete on a Running, never-paused assignment below
budget stores elapsed = min(round(now − start_time), max_duration) — the
live run length rounded to a whole second (Python banker's rounding), not
the raw sub-second value — and end_time = now. -/
theorem complete_never_paused_stores_rounded_min (t st : ℚ) (a : Assignment)
    (h1 : a.is_started = true) (h2 : a.is_complete = false) (h3 : a.is_paused = false)
    (h4 : a.stats.start_time = some st) (h5 : a.stats.last_paused_time = none)
    (h6 : a.stats.elapsed_time.getD 0 + (t - a.stats.last_resumed_time.getD st) <
      (a.max_duration : ℚ)) :
    ∃ a', complete_assignment t a = Except.ok a' ∧
      a'.stats.elapsed_time = some ((min (pyRound (t - st)) a.max_duration : ℤ) : ℚ) ∧
      a'.stats.end_time = some t := by
  refine ⟨markComplete a
      (some ((min (pyRound (t - st)) a.max_duration : ℤ) : ℚ)) (some t),
    ?_, rfl, rfl⟩
  have h6' : ¬ ((a.max_duration : ℚ) ≤
      a.stats.elapsed_time.getD 0 + (t - a.stats.last_resumed_time.getD st)) :=
    not_le.mpr h6
  simp [complete_assignment, h1, h2, h3, h4, h5, h6', markComplete]

/-- C4 witness: budget 60, started at 0, never paused, completed at
t = 10.5: stored elapsed is round-half-even(10.5) = 10 and end_time 10.5. -/
theorem complete_never_paused_stores_rounded_min_witness :
    ∃ a', complete_assignment (21 / 2)
        (⟨60, true, false, false, ⟨some 0, some 0, none, none, none, none, 0⟩⟩ :
          Assignment) = Except.ok a' ∧
      a'.stats.elapsed_time = some 10 ∧
      a'.stats.end_time = some (21 / 2) := by
  obtain ⟨a', h, he, hend⟩ :=
    complete_never_paused_stores_rounded_min (21 / 2) 0
      (⟨60, true, false, false, ⟨some 0, some 0, none, none, none, none, 0⟩⟩ :
        Assignment) rfl rfl rfl rfl rfl (by norm_num)
  have hr : pyRound (21 / 2 - 0 : ℚ) = 10 := by
    unfold pyRound
    norm_num
  refine ⟨a', h, ?_, hend⟩
  rw [he, hr]
  norm_num [min_def]

/-- C6 counterexample: a Paused assignment whose last_paused_time is unset
(corrupted state: start 0, banked elapsed 10, budget 60) is NOT rejected as
an integrity fault — complete at t = 20 succeeds, falling into the
never-paused branch and storing elapsed 20, end_time 20. -/
theorem complete_paused_missing_pause_stamp_succeeds :
    complete_assignment 20
        (⟨60, true, true, false, ⟨some 0, some 10, none, none, none, some 50, 1⟩⟩ :
          Assignment) =
      Except.ok
        (⟨60, true, false, true, ⟨some 0, some 20, some 20, none, none, some 50, 1⟩⟩ :
          Assignment) := by
  have hr : pyRound (20 - 0 : ℚ) = 20 := by
    rw [show ((20 : ℚ) - 0) = ((20 : ℤ) : ℚ) by norm_num]
    exact pyRound_intCast 20
  simp only [complete_assignment, markComplete]
  rw [hr]
  norm_num [min_def]

/-- C6 (corrected): the prerequisite-timestamp integrity checks that exist
fire as internal IntegrityFault errors, distinct from InvalidTransition
guard rejections and with no state written: pause faults when the anchor
(last_resumed_time else start_time) is missing, resume faults when
elapsed_time or remaining_seconds is missing, and complete faults when
start_time is missing.  But complete does NOT check last_paused_time: on a
Paused assignment with last_paused_time unset it succeeds as a normal
completion instead of faulting. -/
theorem missing_timestamp_integrity_faults (t : ℚ) (a : Assignment) :
    (a.is_started = true → a.is_paused = false → a.is_complete = false →
      a.stats.last_resumed_time = none → a.stats.start_time = none →
      pause_assignment t a =
        Except.error (ApiError.integrityFault "Error occurred calculating pause time.")) ∧
    (a.is_started = true → a.is_paused = true → a.is_complete = false →
      a.stats.elapsed_time = none →
      resume_assignment t a =
        Except.error (ApiError.integrityFault "Error calculating remaining time")) ∧
    (a.is_started = true → a.is_paused = true → a.is_complete = false →
      (∃ el, a.stats.elapsed_time = some el) → a.stats.remaining_seconds = none →
      resume_assignment t a =
        Except.error (ApiError.integrityFault "Error calculating remaining time")) ∧
    (a.is_started = true → a.is_complete = false → a.stats.start_time = none →
      complete_assignment t a =
        Except.error (ApiError.integrityFault "Error calculating start time")) ∧
    (a.is_started = true → a.is_paused = true → a.is_complete = false →
      a.stats.last_paused_time = none → (∃ st, a.stats.start_time = some st) →
      ∃ a', complete_assignment t a = Except.ok a') := by
  refine ⟨?_, ?_, ?_, ?_, ?_⟩
  · intro h1 h2 h3 h4 h5
    simp [pause_assignment, h1, h2, h3, h4, h5]
  · intro h1 h2 h3 h4
    simp [resume_assignment, h1, h2, h3, h4]
  · intro h1 h2 h3 h4 h5
    obtain ⟨el, hel⟩ := h4
    simp [resume_assignment, h1, h2, h3, hel, h5]
  · intro h1 h2 h3
    simp [complete_assignment, h1, h2, h3]
  · intro h1 h2 h3 h4 h5
    obtain ⟨st, hst⟩ := h5
    by_cases hcase : (a.max_duration : ℚ) ≤ a.stats.elapsed_time.getD 0
    · refine ⟨markComplete a (some (a.max_duration : ℚ)) a.stats.last_paused_time, ?_⟩
      simp [complete_assignment, h1, h2, h3, hst, hcase, markComplete]
    · refine ⟨markComplete a
          (some ((min (pyRound (t - st)) a.max_duration : ℤ) : ℚ)) (some t), ?_⟩
      simp [complete_assignment, h1, h2, h3, h4, hst, hcase, markComplete]

/-- C6 witness: complete on a started Running assignment whose start_time
is missing faults with the internal error, evaluated concretely. -/
theorem missing_timestamp_integrity_faults_witness :
    complete_assignment 5
        (⟨60, true, false, false, ⟨none, some 0, none, none, none, none, 0⟩⟩ :
          Assignment) =
      Except.error (ApiError.integrityFault "Error calculating start time") :=
  (missing_timestamp_integrity_faults 5
      (⟨60, true, false, false, ⟨none, some 0, none, none, none, none, 0⟩⟩ :
        Assignment)).2.2.2.1 rfl rfl rfl

/-- C3 counterexample: a reachable trace on which a transition DECREASES
the stored elapsed_seconds.  Budget 60: start at t = 0, pause at t = 70
(stores elapsed 70), complete at t = 80: the auto-complete clamp stores
elapsed 60 < 70. -/
theorem elapsed_decreases_on_clamped_complete :
    start_assignment 0 (createAssignment 60) =
      Except.ok
        (⟨60, true, false, false, ⟨some 0, some 0, none, none, none, none, 0⟩⟩ :
          Assignment) ∧
    pause_assignment 70
        (⟨60, true, false, false, ⟨some 0, some 0, none, none, none, none, 0⟩⟩ :
          Assignment) =
      Except.ok
        ((⟨60, true, true, false, ⟨some 0, some 70, none, some 70, none, some (-10), 1⟩⟩ :
          Assignment), "00:01:10") ∧
    complete_assignment 80
        (⟨60, true, true, false, ⟨some 0, some 70, none, some 70, none, some (-10), 1⟩⟩ :
          Assignment) =
      Except.ok
        (⟨60, true, false, true, ⟨some 0, some 60, some 70, some 70, none, some (-10), 1⟩⟩ :
          Assignment) ∧
    ¬ ((70 : ℚ) ≤ 60) := by
  have hfmt : format_time_backwards (70 : ℚ) = "00:01:10" := by
    rw [show ((70 : ℚ)) = ((70 : ℤ) : ℚ) by norm_num, format_time_backwards_intCast]
    decide
  refine ⟨?_, ?_, ?_, by norm_num⟩
  · simp [start_assignment, createAssignment, createStatistics]
  · simp only [pause_assignment, calculate_remaining_time_for_pause]
    norm_num [hfmt]
  · simp only [complete_assignment, markComplete]
    norm_num

/-- C3 (corrected): for every reachable state under a non-decreasing clock,
the non-complete transitions never decrease the stored elapsed_seconds
(start and resume leave it unchanged, pause adds the non-negative live run)
and a successful complete stores, in every one of its branches, an
elapsed_seconds of at most max_duration_seconds — but complete may DECREASE
a previously over-budget elapsed_seconds down to exactly
max_duration_seconds, so monotonicity holds only up to the completion
clamp. -/
theorem elapsed_monotone_until_complete (t : ℚ) (a : Assignment)
    (h : Reachable t a) :
    (∀ a', start_assignment t a = Except.ok a' →
      a'.stats.elapsed_time = a.stats.elapsed_time) ∧
    (∀ a' s e e', pause_assignment t a = Except.ok (a', s) →
      a.stats.elapsed_time = some e → a'.stats.elapsed_time = some e' → e ≤ e') ∧
    (∀ a' r, resume_assignment t a = Except.ok (a', r) →
      a'.stats.elapsed_time = a.stats.elapsed_time) ∧
    (∀ a', complete_assignment t a = Except.ok a' →
      ∃ e', a'.stats.elapsed_time = some e' ∧ e' ≤ (a.max_duration : ℚ)) := by
  obtain ⟨i1, ⟨e0, he0, he0nn⟩, i3, i4, i5⟩ := reachable_inv h
  refine ⟨?_, ?_, ?_, ?_⟩
  · intro a' hok
    rw [start_ok_iff] at hok
    obtain ⟨-, -, -, rfl⟩ := hok
    rfl
  · intro a' s e e' hok he he'
    rw [pause_ok_iff] at hok
    obtain ⟨hs, hp, hc, anc, hanc, rfl, -⟩ := hok
    obtain ⟨st, hst, hstle⟩ := i3 hs
    have hancle : anc ≤ t := by
      cases hlr : a.stats.last_resumed_time with
      | none =>
        rw [hlr] at hanc
        have hanc' : a.stats.start_time = some anc := hanc
        rw [hst] at hanc'
        injection hanc' with h2
        rw [← h2]
        exact hstle
      | some r =>
        rw [hlr] at hanc
        have h2 : r = anc := Option.some.inj hanc
        rw [← h2]
        exact i4 r hlr
    have hval : a.stats.elapsed_time.getD 0 + (t - anc) = e' := Option.some.inj he'
    have he0e : e0 = e := by
      rw [he0] at he
      exact Option.some.inj he
    rw [← hval, he0]
    simp only [Option.getD_some]
    linarith
  · intro a' r hok
    rw [resume_ok_iff] at hok
    obtain ⟨-, -, -, -, rem, hrem, rfl, -⟩ := hok
    rfl
  · intro a' hok
    obtain ⟨-, -, -, -, -, e', he', -, hle⟩ :=
      complete_ok_final_elapsed i1 ⟨e0, he0, he0nn⟩ i3 i4 hok
    exact ⟨e', he', hle⟩

/-- C3 witness: the complete conjunct evaluated on a concrete reachable
state — budget 60, started at 0, completed at t = 5 — whose final elapsed
5 is within the budget. -/
theorem elapsed_monotone_until_complete_witness :
    ∃ e', (⟨60, true, false, true, ⟨some 0, some 5, some 5, none, none, none, 0⟩⟩ :
        Assignment).stats.elapsed_time = some e' ∧ e' ≤ ((60 : ℤ) : ℚ) := by
  have hreach :
      Reachable 5
        (⟨60, true, false, false, ⟨some 0, some 0, none, none, none, none, 0⟩⟩ :
          Assignment) := by
    refine Reachable.tick
      (Reachable.step_start (Reachable.create 0 60 (by norm_num)) ?_) (by norm_num)
    simp [start_assignment, createAssignment, createStatistics]
  have hok :
      complete_assignment 5
          (⟨60, true, false, false, ⟨some 0, some 0, none, none, none, none, 0⟩⟩ :
            Assignment) =
        Except.ok
          (⟨60, true, false, true, ⟨some 0, some 5, some 5, none, none, none, 0⟩⟩ :
            Assignment) := by
    have hr : pyRound ((5 : ℚ) - 0) = 5 := by
      rw [show ((5 : ℚ) - 0) = ((5 : ℤ) : ℚ) by norm_num]
      exact pyRound_intCast 5
    simp only [complete_assignment, markComplete]
    rw [hr]
    norm_num [min_def]
  exact (elapsed_monotone_until_complete 5 _ hreach).2.2.2 _ hok

end QueueTimer
